import Mathlib

/-!
Verification of the incremental OHLCV synchronization scripts
(`incremental_ohlcv_pipeline.py`, `fixed_production_pipeline.py`,
`comprehensive_ohlcv_pipeline.py`).

The Python sources are shallowly embedded: calendar dates are records of
year/month/day numbers, Python's decimal string formatting (`str(n)`,
`f"{n:04d}"`, `f"{n:02d}"`) is modelled by an executable digit-list
function, dataframes are lists of typed rows, the local scratch directory
and the S3 bucket are explicit finite maps threaded through the write
step, and every fallible external call (Snowflake query, HTTP fetch, S3
upload) is an explicit `Except`/`Bool` parameter.  Numeric OHLCV payloads
(open/high/low/close/volume floats) are never inspected by the logic under
verification, so rows carry them as an uninterpreted type parameter `α`.
-/

namespace OHLCV

/-- Calendar date at day granularity, as carried by `strftime('%Y-%m-%d')`
strings in the source: a year, month and day number. -/
structure Date where
  year : Nat
  month : Nat
  day : Nat
deriving DecidableEq, Repr

/-! ## Python decimal formatting

`f"{n:04d}"` and `f"{n:02d}"` print `n` in decimal and left-pad with `'0'`
to the requested width (never truncating).  `natDigitsAux` is fuel-based
structural recursion so that the kernel can evaluate it on concrete
inputs; `n + 1` units of fuel always suffice. -/

/-- Decimal digits of `n`, most significant first, computed with explicit
fuel (`n / 10` strictly decreases, so fuel `n + 1` is enough). -/
def natDigitsAux : Nat → Nat → List Char
  | 0, _ => []
  | fuel + 1, n =>
    if n < 10 then [Nat.digitChar n]
    else natDigitsAux fuel (n / 10) ++ [Nat.digitChar (n % 10)]

/-- Decimal representation of `n` as a list of digit characters, as
Python's `str(n)` produces. -/
def natDigits (n : Nat) : List Char := natDigitsAux (n + 1) n

/-- Python's width-`w` zero-padded decimal formatting `f"{n:0wd}"`:
left-pad the decimal digits with `'0'` to width `w` (never truncate). -/
def zfill (w n : Nat) : List Char :=
  List.replicate (w - (natDigits n).length) '0' ++ natDigits n

/-- Decimal parser used to invert the formatting: fold digits into an
accumulator, as Python's `int(s)` does on digit strings. -/
def parseNatAcc (acc : Nat) (l : List Char) : Nat :=
  l.foldl (fun a c => a * 10 + (c.toNat - 48)) acc

/-- Parse a decimal digit string to a number. -/
def parseNat (l : List Char) : Nat := parseNatAcc 0 l

/-! ### Round-trip facts about the formatting -/

theorem parseNatAcc_append (acc : Nat) (l1 l2 : List Char) :
    parseNatAcc acc (l1 ++ l2) = parseNatAcc (parseNatAcc acc l1) l2 := by
  simp [parseNatAcc, List.foldl_append]

theorem digitChar_toNat_sub (d : Nat) (hd : d < 10) :
    (Nat.digitChar d).toNat - 48 = d := by
  interval_cases d <;> rfl

theorem parseNatAcc_natDigitsAux (fuel : Nat) :
    ∀ n acc, n < fuel →
      parseNatAcc acc (natDigitsAux fuel n) =
        acc * 10 ^ (natDigitsAux fuel n).length + n := by
  induction fuel with
  | zero => intro n acc h; exact absurd h (Nat.not_lt_zero n)
  | succ fuel ih =>
    intro n acc h
    by_cases h10 : n < 10
    · simp only [natDigitsAux, if_pos h10]
      simp [parseNatAcc, digitChar_toNat_sub n h10]
    · have hn0 : 0 < n := by omega
      have hdiv : n / 10 < n := Nat.div_lt_self hn0 (by omega)
      have hfuel : n / 10 < fuel := by omega
      simp only [natDigitsAux, if_neg h10]
      rw [parseNatAcc_append, ih (n / 10) acc hfuel]
      have hmod : n % 10 < 10 := Nat.mod_lt n (by omega)
      simp only [parseNatAcc, List.foldl_cons, List.foldl_nil,
        digitChar_toNat_sub (n % 10) hmod]
      rw [List.length_append, List.length_singleton, pow_succ]
      have := Nat.div_add_mod n 10
      ring_nf
      omega

theorem parseNat_natDigits (n : Nat) : parseNat (natDigits n) = n := by
  have := parseNatAcc_natDigitsAux (n + 1) n 0 (Nat.lt_succ_self n)
  simpa [parseNat, natDigits] using this

theorem parseNatAcc_replicate_zero (k : Nat) :
    parseNatAcc 0 (List.replicate k '0') = 0 := by
  induction k with
  | zero => rfl
  | succ k ih =>
    simpa [List.replicate_succ, parseNatAcc] using ih

theorem parseNat_zfill (w n : Nat) : parseNat (zfill w n) = n := by
  unfold zfill parseNat
  rw [parseNatAcc_append, parseNatAcc_replicate_zero, ← parseNat]
  exact parseNat_natDigits n

theorem zfill_injective (w a b : Nat) (h : zfill w a = zfill w b) : a = b := by
  have := congrArg parseNat h
  rwa [parseNat_zfill, parseNat_zfill] at this

/-! ### The digit alphabet avoids the separator characters -/

theorem digitChar_ne_sep (d : Nat) (hd : d < 10) :
    Nat.digitChar d ≠ '-' ∧ Nat.digitChar d ≠ '_' := by
  interval_cases d <;> exact ⟨by decide, by decide⟩

theorem mem_natDigitsAux_ne_sep (fuel : Nat) :
    ∀ n c, n < fuel → c ∈ natDigitsAux fuel n → c ≠ '-' ∧ c ≠ '_' := by
  induction fuel with
  | zero => intro n c h; exact absurd h (Nat.not_lt_zero n)
  | succ fuel ih =>
    intro n c h hc
    by_cases h10 : n < 10
    · simp only [natDigitsAux, if_pos h10, List.mem_singleton] at hc
      exact hc ▸ digitChar_ne_sep n h10
    · have hdiv : n / 10 < fuel := by
        have : n / 10 < n := Nat.div_lt_self (by omega) (by omega)
        omega
      simp only [natDigitsAux, if_neg h10, List.mem_append,
        List.mem_singleton] at hc
      rcases hc with hc | hc
      · exact ih (n / 10) c hdiv hc
      · exact hc ▸ digitChar_ne_sep (n % 10) (Nat.mod_lt n (by omega))

theorem mem_zfill_ne_sep (w n : Nat) (c : Char) (hc : c ∈ zfill w n) :
    c ≠ '-' ∧ c ≠ '_' := by
  unfold zfill at hc
  rcases List.mem_append.mp hc with hc | hc
  · have := List.eq_of_mem_replicate hc
    subst this
    exact ⟨by decide, by decide⟩
  · exact mem_natDigitsAux_ne_sep (n + 1) n c (Nat.lt_succ_self n) hc

/-! ## Month keys

`_process_data_by_month` labels each group with
`month_key = f"{year:04d}-{month:02d}"`. -/

/-- Character content of the month key `f"{year:04d}-{month:02d}"`. -/
def monthKeyChars (year month : Nat) : List Char :=
  zfill 4 year ++ '-' :: zfill 2 month

/-- The month key string `f"{year:04d}-{month:02d}"` labelling one
calendar-month bucket. -/
def monthKey (year month : Nat) : String := ⟨monthKeyChars year month⟩

/-- Splitting a list at the first occurrence of a separator character is
unambiguous when neither candidate prefix contains the separator. -/
theorem split_at_sep (sep : Char) :
    ∀ (a1 a2 b1 b2 : List Char), sep ∉ a1 → sep ∉ a2 →
      a1 ++ sep :: b1 = a2 ++ sep :: b2 → a1 = a2 ∧ b1 = b2 := by
  intro a1
  induction a1 with
  | nil =>
    intro a2 b1 b2 _ h2 h
    cases a2 with
    | nil => simpa using h
    | cons c t =>
      simp only [List.nil_append, List.cons_append, List.cons.injEq] at h
      exact absurd (h.1 ▸ List.mem_cons_self c t) h2
  | cons c t ih =>
    intro a2 b1 b2 h1 h2 h
    cases a2 with
    | nil =>
      simp only [List.cons_append, List.nil_append, List.cons.injEq] at h
      exact absurd (h.1 ▸ List.mem_cons_self c t) (h.1 ▸ h1)
    | cons c' t' =>
      simp only [List.cons_append, List.cons.injEq] at h
      have h1' : sep ∉ t := fun hm => h1 (List.mem_cons_of_mem c hm)
      have h2' : sep ∉ t' := fun hm => h2 (List.mem_cons_of_mem c' hm)
      obtain ⟨ht, hb⟩ := ih t' b1 b2 h1' h2' h.2
      exact ⟨by rw [h.1, ht], hb⟩

theorem sep_not_mem_zfill (w n : Nat) : '-' ∉ zfill w n := by
  intro h
  exact (mem_zfill_ne_sep w n '-' h).1 rfl

theorem underscore_not_mem_zfill (w n : Nat) : '_' ∉ zfill w n := by
  intro h
  exact (mem_zfill_ne_sep w n '_' h).2 rfl

theorem monthKeyChars_injective (y1 m1 y2 m2 : Nat)
    (h : monthKeyChars y1 m1 = monthKeyChars y2 m2) : y1 = y2 ∧ m1 = m2 := by
  unfold monthKeyChars at h
  obtain ⟨hy, hm⟩ :=
    split_at_sep '-' (zfill 4 y1) (zfill 4 y2) (zfill 2 m1) (zfill 2 m2)
      (sep_not_mem_zfill 4 y1) (sep_not_mem_zfill 4 y2) h
  exact ⟨zfill_injective 4 y1 y2 hy, zfill_injective 2 m1 m2 hm⟩

theorem monthKey_injective (y1 m1 y2 m2 : Nat)
    (h : monthKey y1 m1 = monthKey y2 m2) : y1 = y2 ∧ m1 = m2 := by
  apply monthKeyChars_injective
  injection h

/-! ## Rows and the month partitioner

One dataframe row built by `_process_data_by_month`: the ticker column,
the `OHLC_DATE` column, and the numeric columns
(open/high/low/close/volume and the microsecond timestamp), which the
pipeline logic never inspects and which are therefore carried as an
uninterpreted payload `α`. -/

/-- One dataframe row (`TICKER`, `OHLC_DATE`, numeric payload). -/
structure Bar (α : Type) where
  ticker : String
  date : Date
  payload : α
deriving DecidableEq, Repr

/-- One raw result entry of the upstream API envelope: the epoch-millis
timestamp `t` plus the numeric fields, carried uninterpreted. -/
structure RawBar (α : Type) where
  t : Nat
  payload : α
deriving DecidableEq, Repr

/-- Record construction loop of `_process_data_by_month` and
`_process_month_data`: each raw result becomes one row whose `OHLC_DATE`
is the calendar date of its epoch-millis timestamp.  The library
conversion `datetime.fromtimestamp(t / 1000)` is an external input,
passed as `msToDate`. -/
def dataToBars (msToDate : Nat → Date) (ticker : String)
    (results : List (RawBar α)) : List (Bar α) :=
  results.map (fun r => ⟨ticker, msToDate r.t, r.payload⟩)

/-- Month key of one row's trade date, as used by the
`groupby([year, month])` in `_process_data_by_month`. -/
def monthKeyOf (b : Bar α) : String := monthKey b.date.year b.date.month

/-- The rows of one month bucket: the subsequence of `rows` whose trade
date falls in the bucket's calendar month, in input order (pandas
`groupby` preserves within-group order). -/
def bucket (rows : List (Bar α)) (k : String) : List (Bar α) :=
  rows.filter (fun b => monthKeyOf b == k)

/-- The grouping of `_process_data_by_month`: one entry per distinct month
key occurring in `rows`, carrying that month's rows.  Months with no rows
never appear. -/
def monthlyBuckets [DecidableEq α] (rows : List (Bar α)) :
    List (String × List (Bar α)) :=
  (rows.map monthKeyOf).dedup.map (fun k => (k, bucket rows k))

/-! ## The API envelope and the fetch helper -/

/-- Upstream API response envelope as probed by the source:
`data.get('status')` and `data.get('results')`, either of which may be
absent. -/
structure ApiResponse (α : Type) where
  status : Option String
  results : Option (List (RawBar α))
deriving DecidableEq, Repr

/-- Python truthiness of `data.get('results')`: present and non-empty. -/
def truthyResults (data : ApiResponse α) : Bool :=
  match data.results with
  | some (_ :: _) => true
  | _ => false

/-- Model of `_get_polygon_data`: the HTTP call either raises (timeout,
non-2xx, ...) — modelled as `Except.error` — or yields an envelope.  The
helper returns the envelope only when `status == 'OK'` and the results
list is truthy; any other outcome (exception, bad status, absent or empty
results) collapses to `none`. -/
def getPolygonData (fetched : Except Unit (ApiResponse α)) :
    Option (ApiResponse α) :=
  match fetched with
  | .error _ => none
  | .ok data =>
    if data.status = some "OK" ∧ truthyResults data then some data else none

/-- Model of `_process_data_by_month` end to end: on a falsy results field
return the empty mapping, otherwise build the rows and group them by
month key. -/
def processDataByMonth [DecidableEq α] (msToDate : Nat → Date)
    (ticker : String) (data : ApiResponse α) : List (String × List (Bar α)) :=
  match data.results with
  | none => []
  | some [] => []
  | some results => monthlyBuckets (dataToBars msToDate ticker results)

/-! ## The expected-month contamination guard

`_process_month_data` (fixed_production_pipeline.py) receives the target
month as the string `expected_month`, recovers the year and month numbers
with `expected_month.split('-')` and `int(...)`, and keeps only the rows
of that month. -/

/-- Python `str.split('-')` on character lists: accumulate the current
segment, emitting it at each separator. -/
def splitOnDashAux : List Char → List Char → List (List Char)
  | [], cur => [cur.reverse]
  | c :: rest, cur =>
    if c = '-' then cur.reverse :: splitOnDashAux rest []
    else splitOnDashAux rest (c :: cur)

/-- Python `s.split('-')`. -/
def splitOnDash (l : List Char) : List (List Char) := splitOnDashAux l []

/-- The `int(expected_year), int(expected_month_num)` pair recovered from
an `'YYYY-MM'` key by `_process_month_data`. -/
def parseMonthKey (s : String) : Nat × Nat :=
  let parts := splitOnDash s.data
  (parseNat (parts.getD 0 []), parseNat (parts.getD 1 []))

theorem splitOnDashAux_no_sep (b : List Char) :
    ∀ cur, '-' ∉ b → splitOnDashAux b cur = [cur.reverse ++ b] := by
  induction b with
  | nil => intro cur _; simp [splitOnDashAux]
  | cons c rest ih =>
    intro cur hb
    have hc : ¬ c = '-' := fun h => hb (h ▸ List.mem_cons_self c rest)
    have hrest : '-' ∉ rest := fun h => hb (List.mem_cons_of_mem c h)
    simp only [splitOnDashAux, if_neg hc, ih (c :: cur) hrest]
    simp

theorem splitOnDashAux_sep (a : List Char) :
    ∀ b cur, '-' ∉ a →
      splitOnDashAux (a ++ '-' :: b) cur =
        (cur.reverse ++ a) :: splitOnDashAux b [] := by
  induction a with
  | nil => intro b cur _; simp [splitOnDashAux]
  | cons c rest ih =>
    intro b cur ha
    have hc : ¬ c = '-' := fun h => ha (h ▸ List.mem_cons_self c rest)
    have hrest : '-' ∉ rest := fun h => ha (List.mem_cons_of_mem c h)
    simp only [List.cons_append, splitOnDashAux, if_neg hc, List.append_eq]
    rw [ih b (c :: cur) hrest]
    simp

/-- Round trip: parsing a generated `'YYYY-MM'` key recovers the year and
month numbers. -/
theorem parseMonthKey_monthKey (y m : Nat) :
    parseMonthKey (monthKey y m) = (y, m) := by
  unfold parseMonthKey monthKey monthKeyChars
  have hsplit :
      splitOnDash (zfill 4 y ++ '-' :: zfill 2 m) = [zfill 4 y, zfill 2 m] := by
    unfold splitOnDash
    rw [splitOnDashAux_sep (zfill 4 y) (zfill 2 m) [] (sep_not_mem_zfill 4 y),
      splitOnDashAux_no_sep (zfill 2 m) [] (sep_not_mem_zfill 2 m)]
    simp
  rw [hsplit]
  simp [List.getD, parseNat_zfill]

/-- Model of `_process_month_data`: convert the raw results to rows, then
keep only the rows whose trade date lies in the expected month; return
`none` when the results are falsy or nothing survives the filter. -/
def processMonthData [DecidableEq α] (msToDate : Nat → Date) (ticker : String)
    (data : ApiResponse α) (expectedMonth : String) : Option (List (Bar α)) :=
  match data.results with
  | none => none
  | some [] => none
  | some results =>
    let df := dataToBars msToDate ticker results
    let ey := (parseMonthKey expectedMonth).1
    let em := (parseMonthKey expectedMonth).2
    let filtered := df.filter (fun b => b.date.year == ey && b.date.month == em)
    if filtered.isEmpty then none else some filtered

/-! ## Cutoff date and planner

Days are counted from the Unix epoch (1970-01-01, a Thursday).
`datetime.weekday()` numbers Monday 0 .. Sunday 6, so day `n` has weekday
`(n + 3) % 7`.  Date-string comparisons in the source
(`start_date > self.END_DATE` on `'YYYY-MM-DD'` strings) coincide with
numeric day-ordinal comparison, so windows are modelled as ordinal
pairs. -/

/-- Python `datetime.weekday()` of epoch day `n`: Monday is 0, Sunday 6. -/
def pyWeekday (day : Nat) : Nat := (day + 3) % 7

/-- `END_DATE` as computed once in `IncrementalOHLCVPipeline.__init__`
from the run's start day: Saturday maps one day back, Sunday two days
back, any weekday one day back. -/
def endDate (today : Nat) : Nat :=
  if pyWeekday today = 5 then today - 1
  else if pyWeekday today = 6 then today - 2
  else today - 1

/-- Model of `get_max_date_for_ticker`: the Snowflake `MAX(OHLC_DATE)`
query may itself raise (`hwm t = .error`), in which case the source
catches the exception and returns `None`, exactly like a ticker with no
prior data. -/
def getMaxDateForTicker (hwm : String → Except Unit (Option Nat))
    (ticker : String) : Option Nat :=
  match hwm ticker with
  | .ok v => v
  | .error _ => none

/-- Per-ticker window of `get_ticker_date_ranges`: start the day after
the high-water mark when one exists (dropping the ticker when that start
is past `END_DATE`), otherwise start 730 days before the run's start
day. -/
def plannedWindow (today : Nat) (maxDate : Option Nat) :
    Option (Nat × Nat) :=
  match maxDate with
  | some d =>
    if d + 1 > endDate today then none else some (d + 1, endDate today)
  | none => some (today - 730, endDate today)

/-- Model of `get_ticker_date_ranges`: the per-ticker windows for every
ticker that needs an update, in ticker order. -/
def getTickerDateRanges (today : Nat) (tickers : List String)
    (hwm : String → Except Unit (Option Nat)) :
    List (String × Nat × Nat) :=
  tickers.filterMap (fun t =>
    (plannedWindow today (getMaxDateForTicker hwm t)).map (fun w => (t, w)))

/-! ## The artifact writer

`_save_and_upload_to_s3` builds the key
`f"{ticker}_{month.replace('-', '_')}.parquet"`, serializes the dataframe
to a local scratch file of the same name, uploads it to the bucket root,
and removes the scratch file; every failure path also removes the scratch
file and returns `False`.  The local directory is a set of file names,
the bucket a map from keys to serialized contents.  External outcomes
(serialization error, upload error, and whether a failed serialization
left a partial file behind) are explicit Booleans. -/

/-- Python `month.replace('-', '_')` at character level. -/
def replaceDash (l : List Char) : List Char :=
  l.map (fun c => if c = '-' then '_' else c)

/-- Character content of the artifact key
`f"{ticker}_{month.replace('-', '_')}.parquet"`. -/
def s3FilenameChars (ticker month : String) : List Char :=
  ticker.data ++ '_' :: (replaceDash month.data ++ ".parquet".data)

/-- The artifact key / scratch file name, a pure function of the ticker
and the month key. -/
def s3Filename (ticker month : String) : String := ⟨s3FilenameChars ticker month⟩

/-- One serialized row under the fixed Parquet schema: the columns in
fixed order (`TICKER`, `OHLC_DATE`, then the numeric fields). -/
def serializeRow (b : Bar α) : String × Date × α := (b.ticker, b.date, b.payload)

/-- Deterministic serialization of a dataframe under the fixed schema:
the rows in order, each under the fixed column order.  `pq.write_table`
receives only the table and the fixed compression codec, so the bytes are
a function of the rows alone. -/
def serializeDF (df : List (Bar α)) : List (String × Date × α) :=
  df.map serializeRow

/-- Local scratch directory: which file names currently exist. -/
def Scratch : Type := String → Bool

/-- The staging bucket: serialized content per key, `none` when the key
is absent. -/
def Store (α : Type) : Type := String → Option (List (String × Date × α))

/-- Model of `_save_and_upload_to_s3`.  Returns the reported success flag
and the resulting scratch directory and bucket.  `serOk` is whether
`pq.write_table` succeeds, `upOk` whether `upload_file` succeeds, and
`leftoverOnFail` whether a failed serialization left a file behind for
the `os.path.exists` cleanup check to find. -/
def saveAndUploadToS3 (ticker month : String) (df : List (Bar α))
    (serOk upOk leftoverOnFail : Bool) (fs : Scratch) (store : Store α) :
    Bool × Scratch × Store α :=
  let name := s3Filename ticker month
  if serOk then
    let fs1 : Scratch := fun k => if k = name then true else fs k
    if upOk then
      let store1 : Store α :=
        fun k => if k = name then some (serializeDF df) else store k
      (true, fun k => if k = name then false else fs1 k, store1)
    else
      (false, fun k => if k = name then false else fs1 k, store)
  else
    let fs1 : Scratch := fun k => if k = name then leftoverOnFail else fs k
    (false, fun k => if k = name then false else fs1 k, store)

/-! ## Per-ticker processing and the run loop -/

/-- Model of `process_ticker` (incremental pipeline).  `writeOk` gives the
outcome of `_save_and_upload_to_s3` per month key.  Returns the reported
success flag together with the list of month keys for which an upload was
attempted, in order. -/
def processTicker [DecidableEq α] (msToDate : Nat → Date) (ticker : String)
    (fetched : Except Unit (ApiResponse α)) (writeOk : String → Bool) :
    Bool × List String :=
  match getPolygonData fetched with
  | none => (false, [])
  | some data =>
    let monthly := processDataByMonth msToDate ticker data
    let total := monthly.length
    let succ := (monthly.filter (fun p => writeOk p.1)).length
    (succ == total && decide (0 < total), monthly.map Prod.fst)

/-- Model of `IncrementalOHLCVPipeline.run`.  A failure to enumerate
tickers (`enum = .error`) propagates and aborts the run before any
fetching.  Otherwise every planned ticker is processed in order and its
reported success recorded; per-ticker failures are recorded, never
propagated. -/
def runPipeline [DecidableEq α] (enum : Except Unit (List String))
    (hwm : String → Except Unit (Option Nat))
    (fetch : String → Nat → Nat → Except Unit (ApiResponse α))
    (writeOk : String → String → Bool) (msToDate : Nat → Date)
    (today : Nat) : Except Unit (List (String × Bool)) :=
  match enum with
  | .error e => .error e
  | .ok tickers =>
    let ranges := getTickerDateRanges today tickers hwm
    .ok (ranges.map (fun r =>
      (r.1, (processTicker msToDate r.1 (fetch r.1 r.2.1 r.2.2)
        (writeOk r.1)).1)))

/-! ## Concrete demonstration data

A three-row fetch spanning a month boundary (2024-02-28, 2024-03-01,
2024-03-02), as in the spec's end-to-end scenario 3. -/

/-- Demonstration epoch-millis-to-date conversion table. -/
def demoMsToDate : Nat → Date := fun ms =>
  if ms = 1 then ⟨2024, 2, 28⟩
  else if ms = 2 then ⟨2024, 3, 1⟩
  else ⟨2024, 3, 2⟩

/-- Three raw result entries with timestamps mapping to
2024-02-28, 2024-03-01 and 2024-03-02. -/
def demoResults : List (RawBar Nat) := [⟨1, 0⟩, ⟨2, 0⟩, ⟨3, 0⟩]

/-- A successful envelope carrying the three demonstration rows. -/
def demoData : ApiResponse Nat := ⟨some "OK", some demoResults⟩

/-- The rows built from the demonstration envelope. -/
def demoBars : List (Bar Nat) := dataToBars demoMsToDate "AAPL" demoResults

/-- An upstream no-data envelope: bad status, empty results list. -/
def noDataEnvelope : ApiResponse Nat := ⟨some "DELAYED", some []⟩

/-! ## Claim C1 -/

/-- C1: when the caller supplies an expected period key up front,
`_process_month_data` keeps a row in its (sole, optional) output bucket
exactly when the row comes from the fetched data and its trade date lies
in the expected calendar month; every other fetched row is silently
dropped, and the call returns no bucket at all exactly when no fetched
row lies in the expected month — so no bucket for a neighboring period is
ever produced. -/
theorem c1_expected_month_guard [DecidableEq α] (msToDate : Nat → Date)
    (ticker : String) (data : ApiResponse α) (y m : Nat) :
    (∀ l, processMonthData msToDate ticker data (monthKey y m) = some l →
      ∀ b : Bar α, b ∈ l ↔
        (b ∈ dataToBars msToDate ticker (data.results.getD []) ∧
          b.date.year = y ∧ b.date.month = m))
    ∧ (processMonthData msToDate ticker data (monthKey y m) = none ↔
        ∀ b ∈ dataToBars msToDate ticker (data.results.getD []),
          ¬(b.date.year = y ∧ b.date.month = m)) := by
  have hkey := parseMonthKey_monthKey y m
  rcases data with ⟨st, res⟩
  rcases res with _ | ⟨_ | ⟨r, rs⟩⟩
  · constructor
    · intro l hl
      simp [processMonthData] at hl
    · simp [processMonthData, dataToBars]
  · constructor
    · intro l hl
      simp [processMonthData] at hl
    · simp [processMonthData, dataToBars]
  · simp only [processMonthData, hkey, Option.getD_some]
    set df := dataToBars msToDate ticker (r :: rs) with hdf
    set fl := df.filter (fun b => b.date.year == y && b.date.month == m)
      with hfl
    have hmem : ∀ b : Bar α, b ∈ fl ↔
        (b ∈ df ∧ b.date.year = y ∧ b.date.month = m) := by
      intro b
      rw [hfl, List.mem_filter]
      simp [Bool.and_eq_true, beq_iff_eq, and_assoc]
    by_cases he : fl = []
    · have hie : fl.isEmpty = true := List.isEmpty_iff.mpr he
      rw [if_pos hie]
      constructor
      · intro l hl
        exact absurd hl (by simp)
      · simp only [true_iff]
        intro b hb hbm
        have : b ∈ fl := (hmem b).mpr ⟨hb, hbm.1, hbm.2⟩
        rw [he] at this
        exact absurd this (List.not_mem_nil b)
    · have hie : ¬ fl.isEmpty = true := fun h => he (List.isEmpty_iff.mp h)
      rw [if_neg hie]
      constructor
      · intro l hl
        have hl' : fl = l := (Option.some.injEq _ _).mp hl
        subst hl'
        exact hmem
      · constructor
        · intro h
          exact absurd h (by simp)
        · intro hall
          exfalso
          apply he
          rcases List.exists_mem_of_ne_nil fl he with ⟨b, hb⟩
          have := (hmem b).mp hb
          exact absurd ⟨this.2.1, this.2.2⟩ (hall b this.1)

/-- C1 witness: the spec's scenario 3 — for a request scoped to 2024-02,
the 2024-03-01 row is not in the (sole) retained bucket, which holds
exactly the 2024-02-28 row. -/
theorem c1_expected_month_guard_witness :
    (⟨"AAPL", ⟨2024, 3, 1⟩, 0⟩ : Bar Nat) ∉
      [(⟨"AAPL", ⟨2024, 2, 28⟩, 0⟩ : Bar Nat)] := by
  have h := (c1_expected_month_guard demoMsToDate "AAPL" demoData 2024 2).1
    [⟨"AAPL", ⟨2024, 2, 28⟩, 0⟩] (by decide)
  intro hmem
  have h2 := (h ⟨"AAPL", ⟨2024, 3, 1⟩, 0⟩).mp hmem
  exact absurd h2.2.2 (by decide)

/-! ## Claim C4 -/

/-- C4: the month partitioner assigns a row to the bucket keyed by a
calendar month exactly when the row's trade date lies in that month; a
row is in at most one bucket; each row's multiplicity in its bucket
equals its multiplicity in the input (no duplication, no loss); a key
appears in the output mapping exactly when its bucket is non-empty; and
bucket contents depend only on which rows were supplied, not on their
order. -/
theorem c4_partitioner [DecidableEq α] (rows rows' : List (Bar α))
    (k : String) (l : List (Bar α)) (b : Bar α) (y m : Nat) :
    ((k, l) ∈ monthlyBuckets rows → l = bucket rows k ∧ l ≠ [])
    ∧ (b ∈ bucket rows (monthKey y m) ↔
        (b ∈ rows ∧ b.date.year = y ∧ b.date.month = m))
    ∧ (b ∈ bucket rows k → k = monthKeyOf b)
    ∧ ((bucket rows (monthKeyOf b)).count b = rows.count b)
    ∧ ((∃ l', (k, l') ∈ monthlyBuckets rows) ↔ bucket rows k ≠ [])
    ∧ (rows.Perm rows' → (bucket rows k).Perm (bucket rows' k)) := by
  have hbucket_mem : ∀ (k' : String) (b' : Bar α),
      b' ∈ bucket rows k' ↔ (b' ∈ rows ∧ monthKeyOf b' = k') := by
    intro k' b'
    rw [bucket, List.mem_filter]
    simp [beq_iff_eq]
  have hkey_mem : ∀ k' : String,
      k' ∈ (rows.map monthKeyOf).dedup ↔ bucket rows k' ≠ [] := by
    intro k'
    rw [List.mem_dedup, List.mem_map]
    constructor
    · rintro ⟨b', hb', hk'⟩
      exact List.ne_nil_of_mem ((hbucket_mem k' b').mpr ⟨hb', hk'⟩)
    · intro hne
      rcases List.exists_mem_of_ne_nil _ hne with ⟨b', hb'⟩
      have := (hbucket_mem k' b').mp hb'
      exact ⟨b', this.1, this.2⟩
  refine ⟨?_, ?_, ?_, ?_, ?_, ?_⟩
  · intro hkl
    rw [monthlyBuckets, List.mem_map] at hkl
    rcases hkl with ⟨k', hk', hpair⟩
    have hk : k' = k := congrArg Prod.fst hpair
    have hl : l = bucket rows k := by
      have := congrArg Prod.snd hpair
      simp only at this
      rw [← this, hk]
    subst hk
    exact ⟨hl, hl ▸ (hkey_mem k').mp hk'⟩
  · rw [hbucket_mem]
    constructor
    · rintro ⟨hb, hk⟩
      rcases monthKey_injective _ _ _ _ hk with ⟨hy, hm⟩
      exact ⟨hb, hy, hm⟩
    · rintro ⟨hb, hy, hm⟩
      exact ⟨hb, by rw [monthKeyOf, hy, hm]⟩
  · intro hb
    exact ((hbucket_mem k b).mp hb).2.symm
  · rw [bucket]
    exact List.count_filter (by simp [beq_iff_eq, monthKeyOf])
  · constructor
    · rintro ⟨l', hl'⟩
      rw [monthlyBuckets, List.mem_map] at hl'
      rcases hl' with ⟨k', hk', hpair⟩
      have hk : k' = k := congrArg Prod.fst hpair
      exact hk ▸ (hkey_mem k').mp hk'
    · intro hne
      exact ⟨bucket rows k, by
        rw [monthlyBuckets, List.mem_map]
        exact ⟨k, (hkey_mem k).mpr hne, rfl⟩⟩
  · intro hperm
    exact hperm.filter _

/-- C4 witness: in the demonstration rows, the 2024-02-28 row lands in
the 2024-02 bucket. -/
theorem c4_partitioner_witness :
    (⟨"AAPL", ⟨2024, 2, 28⟩, 0⟩ : Bar Nat) ∈ bucket demoBars (monthKey 2024 2) := by
  exact (c4_partitioner demoBars demoBars (monthKey 2024 2) []
    ⟨"AAPL", ⟨2024, 2, 28⟩, 0⟩ 2024 2).2.1.mpr ⟨by decide, rfl, rfl⟩

/-! ## Claim C2 (corrected)

The source treats a no-data envelope as a per-ticker failure, not as a
zero-artifact success: `_get_polygon_data` collapses it to `None`, and
`process_ticker` then returns `False`, which `run` records in the failed
list.  The run does continue to the remaining entities. -/

/-- C2 counterexample: a no-data envelope (status `'DELAYED'`, empty
results) makes `process_ticker` report failure — `False`, with no
uploads attempted — not a zero-artifact success as the claim states. -/
theorem c2_no_data_counterexample :
    (processTicker demoMsToDate "AAPL" (Except.ok noDataEnvelope)
        (fun _ => true)).1 = false
    ∧ (processTicker demoMsToDate "AAPL" (Except.ok noDataEnvelope)
        (fun _ => true)).2 = [] := by
  constructor <;> rfl

/-- C2 amended: on an upstream no-data envelope (status not `'OK'`, or a
missing/empty results field) the fetch helper returns `none`, the entity
is recorded as a failure with zero artifacts attempted — the source does
not distinguish no-data from a fetch failure — and the run still
processes every planned entity. -/
theorem c2_no_data_recorded_as_failure [DecidableEq α]
    (msToDate : Nat → Date) (ticker : String) (data : ApiResponse α)
    (writeOk : String → Bool)
    (hnd : ¬ data.status = some "OK" ∨ truthyResults data = false) :
    getPolygonData (Except.ok data) = none
    ∧ processTicker msToDate ticker (Except.ok data) writeOk = (false, [])
    ∧ (∀ (tickers : List String) (hwm : String → Except Unit (Option Nat))
        (fetch : String → Nat → Nat → Except Unit (ApiResponse α))
        (wOk : String → String → Bool) (today : Nat),
        ∃ L, runPipeline (Except.ok tickers) hwm fetch wOk msToDate today =
            Except.ok L
          ∧ L.map Prod.fst =
              (getTickerDateRanges today tickers hwm).map Prod.fst) := by
  have hnone : getPolygonData (Except.ok data) = none := by
    rw [getPolygonData]
    rw [if_neg]
    rintro ⟨hst, htr⟩
    rcases hnd with h | h
    · exact h hst
    · rw [htr] at h
      exact absurd h (by simp)
  refine ⟨hnone, ?_, ?_⟩
  · rw [processTicker, hnone]
  · intro tickers hwm fetch wOk today
    refine ⟨_, rfl, ?_⟩
    rw [List.map_map]
    rfl

/-- C2 witness for the amended claim, at the concrete no-data
envelope. -/
theorem c2_no_data_recorded_as_failure_witness :
    getPolygonData (Except.ok noDataEnvelope) = none := by
  exact (c2_no_data_recorded_as_failure demoMsToDate "AAPL" noDataEnvelope
    (fun _ => true) (Or.inr (by decide))).1

/-! ## Claim C3 (corrected)

For a ticker with no prior data, `get_ticker_date_ranges` starts the
window at `datetime.now() - timedelta(days=730)` — 730 days before the
run's start day — not 730 days before the cutoff `END_DATE` (which is the
previous trading-adjacent day, one or two days earlier). -/

/-- Helper: every window the planner emits ends at the run's cutoff and
satisfies `start ≤ end`. -/
theorem plannedWindow_sound (today : Nat) (maxDate : Option Nat)
    (w : Nat × Nat) (hw : plannedWindow today maxDate = some w) :
    w.1 ≤ w.2 ∧ w.2 = endDate today := by
  rcases maxDate with _ | d
  · rw [plannedWindow] at hw
    have hw' := (Option.some.injEq _ _).mp hw
    subst hw'
    refine ⟨?_, rfl⟩
    rw [endDate, pyWeekday]
    split_ifs <;> omega
  · rw [plannedWindow] at hw
    by_cases hgt : d + 1 > endDate today
    · rw [if_pos hgt] at hw
      exact absurd hw (by simp)
    · rw [if_neg hgt] at hw
      have hw' := (Option.some.injEq _ _).mp hw
      subst hw'
      exact ⟨by omega, rfl⟩

/-- Helper: membership in the emitted plan comes from `plannedWindow`. -/
theorem mem_getTickerDateRanges (today : Nat) (tickers : List String)
    (hwm : String → Except Unit (Option Nat)) (r : String × Nat × Nat)
    (hr : r ∈ getTickerDateRanges today tickers hwm) :
    r.1 ∈ tickers ∧
      plannedWindow today (getMaxDateForTicker hwm r.1) = some r.2 := by
  rw [getTickerDateRanges, List.mem_filterMap] at hr
  rcases hr with ⟨t, ht, hmap⟩
  rcases Option.map_eq_some'.mp hmap with ⟨w, hw, hpair⟩
  have h1 : r.1 = t := by rw [← hpair]
  have h2 : r.2 = w := by rw [← hpair]
  rw [h1, h2]
  exact ⟨ht, hw⟩

/-- C3 counterexample: on run day 20000 (a Friday; cutoff is day 19999),
a ticker with no high-water mark is planned from day `20000 - 730 =
19270`, not from `cutoff - 730 = 19269` as the claim states. -/
theorem c3_lookback_counterexample :
    ¬ plannedWindow 20000 none =
        some (endDate 20000 - 730, endDate 20000) := by
  decide

/-- C3 amended: with a high-water mark `d` the planner emits
`[d + 1, cutoff]`, omitting the ticker exactly when `d + 1 > cutoff`;
with no high-water mark it emits `[today - 730, cutoff]` where `today` is
the run's start day (1–2 days after the cutoff, so the start is 730 days
before the run day, not before the cutoff); every emitted window
satisfies `start ≤ end`. -/
theorem c3_planner_windows (today : Nat) (maxDate : Option Nat) :
    (∀ d, maxDate = some d →
      plannedWindow today maxDate =
        if d + 1 > endDate today then none
        else some (d + 1, endDate today))
    ∧ (maxDate = none →
        plannedWindow today maxDate = some (today - 730, endDate today))
    ∧ (∀ w, plannedWindow today maxDate = some w →
        w.1 ≤ w.2 ∧ w.2 = endDate today) := by
  refine ⟨?_, ?_, ?_⟩
  · intro d hd
    subst hd
    rfl
  · intro hd
    subst hd
    rfl
  · exact plannedWindow_sound today maxDate

/-- C3 witness: concrete fallback window for a ticker with no prior
data on run day 20000. -/
theorem c3_planner_windows_witness :
    plannedWindow 20000 none = some (20000 - 730, endDate 20000) := by
  exact (c3_planner_windows 20000 none).2.1 rfl

/-! ## Claim C5 -/

/-- C5: the artifact key is the pure function `s3Filename` of the ticker
and the month key alone, and serialization is a function of the rows
alone, so writing a bucket and then re-writing it leaves the bucket state
identical: the first write installs exactly the serialized rows at
exactly that key (touching no other key), the second write changes
nothing — a re-run is a true overwrite, never a second object. -/
theorem c5_idempotent_overwrite (ticker month : String)
    (df : List (Bar α)) (p1 p2 : Bool) (fs : Scratch) (store : Store α) :
    (saveAndUploadToS3 ticker month df true true p1 fs store).1 = true
    ∧ (saveAndUploadToS3 ticker month df true true p1 fs store).2.2
        (s3Filename ticker month) = some (serializeDF df)
    ∧ (∀ k, k ≠ s3Filename ticker month →
        (saveAndUploadToS3 ticker month df true true p1 fs store).2.2 k
          = store k)
    ∧ (saveAndUploadToS3 ticker month df true true p2
        (saveAndUploadToS3 ticker month df true true p1 fs store).2.1
        (saveAndUploadToS3 ticker month df true true p1 fs store).2.2).2.2
      = (saveAndUploadToS3 ticker month df true true p1 fs store).2.2
    ∧ (saveAndUploadToS3 ticker month df true true p2
        (saveAndUploadToS3 ticker month df true true p1 fs store).2.1
        (saveAndUploadToS3 ticker month df true true p1 fs store).2.2).2.1
      = (saveAndUploadToS3 ticker month df true true p1 fs store).2.1 := by
  refine ⟨rfl, ?_, ?_, ?_, ?_⟩
  · simp [saveAndUploadToS3]
  · intro k hk
    simp [saveAndUploadToS3, hk]
  · funext k
    by_cases hk : k = s3Filename ticker month <;>
      simp [saveAndUploadToS3, hk]
  · funext k
    by_cases hk : k = s3Filename ticker month <;>
      simp [saveAndUploadToS3, hk]

/-- C5 witness: a concrete write touches no key other than its own. -/
theorem c5_idempotent_overwrite_witness :
    (saveAndUploadToS3 "AAPL" "2024-02" ([] : List (Bar Nat)) true true
      false (fun _ => false) (fun _ => none)).2.2 "other.parquet" = none := by
  exact (c5_idempotent_overwrite "AAPL" "2024-02" ([] : List (Bar Nat))
    true true (fun _ => false) (fun _ => none)).2.2.1 "other.parquet"
    (by decide)

/-! ## Claim C6 -/

/-- C6: after any invocation of the write step the scratch file is gone —
on success it is removed after upload, on serialization or upload failure
the exception handler removes it — no other scratch entry is touched, the
reported result is success exactly when both stages succeeded, and on
failure the bucket is left untouched. -/
theorem c6_scratch_cleanup (ticker month : String) (df : List (Bar α))
    (serOk upOk leftoverOnFail : Bool) (fs : Scratch) (store : Store α) :
    (saveAndUploadToS3 ticker month df serOk upOk leftoverOnFail fs
        store).2.1 (s3Filename ticker month) = false
    ∧ (∀ k, k ≠ s3Filename ticker month →
        (saveAndUploadToS3 ticker month df serOk upOk leftoverOnFail fs
          store).2.1 k = fs k)
    ∧ (saveAndUploadToS3 ticker month df serOk upOk leftoverOnFail fs
        store).1 = (serOk && upOk)
    ∧ ((saveAndUploadToS3 ticker month df serOk upOk leftoverOnFail fs
        store).1 = false →
        (saveAndUploadToS3 ticker month df serOk upOk leftoverOnFail fs
          store).2.2 = store) := by
  cases serOk <;> cases upOk <;>
    refine ⟨by simp [saveAndUploadToS3], ?_, by simp [saveAndUploadToS3], ?_⟩ <;>
    first
    | (intro k hk; simp [saveAndUploadToS3, hk])
    | (intro h; rfl)
    | (intro h; exact absurd h (by simp [saveAndUploadToS3]))

/-- C6 witness: a concrete failed upload (`upOk = false`) reports
failure, leaves the bucket untouched and leaves no scratch file. -/
theorem c6_scratch_cleanup_witness :
    (saveAndUploadToS3 "MSFT" "2024-03" ([] : List (Bar Nat)) true false
        false (fun _ => false) (fun _ => none)).2.2 = (fun _ => none)
    ∧ (saveAndUploadToS3 "MSFT" "2024-03" ([] : List (Bar Nat)) true false
        false (fun _ => false) (fun _ => none)).2.1
        (s3Filename "MSFT" "2024-03") = false := by
  have h := c6_scratch_cleanup "MSFT" "2024-03" ([] : List (Bar Nat)) true
    false false (fun _ => false) (fun _ => none)
  exact ⟨h.2.2.2 rfl, h.1⟩

/-! ## Claim C7 -/

/-- C7: when the fetch yielded data and at least one month bucket exists,
`process_ticker` attempts an upload for every bucket — none is skipped
after an earlier failure — and reports success exactly when every
bucket's upload succeeded. -/
theorem c7_entity_success_iff_all_buckets [DecidableEq α]
    (msToDate : Nat → Date) (ticker : String)
    (fetched : Except Unit (ApiResponse α)) (writeOk : String → Bool)
    (data : ApiResponse α)
    (hdata : getPolygonData fetched = some data)
    (hne : processDataByMonth msToDate ticker data ≠ []) :
    (processTicker msToDate ticker fetched writeOk).2 =
      (processDataByMonth msToDate ticker data).map Prod.fst
    ∧ ((processTicker msToDate ticker fetched writeOk).1 = true ↔
        ∀ k ∈ (processDataByMonth msToDate ticker data).map Prod.fst,
          writeOk k = true) := by
  rw [processTicker, hdata]
  set monthly := processDataByMonth msToDate ticker data with hm
  refine ⟨rfl, ?_⟩
  simp only [Bool.and_eq_true, beq_iff_eq, decide_eq_true_eq]
  constructor
  · rintro ⟨hlen, _⟩ k hk
    rcases List.mem_map.mp hk with ⟨p, hp, hpk⟩
    have hall := (List.filter_length_eq_length).mp hlen
    have := hall p hp
    rw [← hpk]
    simpa using this
  · intro hall
    refine ⟨List.filter_length_eq_length.mpr ?_, ?_⟩
    · intro p hp
      simpa using hall p.1 (List.mem_map.mpr ⟨p, hp, rfl⟩)
    · exact List.length_pos.mpr hne

/-- C7 witness: the demonstration fetch spans two months; with both
uploads succeeding the entity reports success, and both month keys were
attempted. -/
theorem c7_entity_success_witness :
    (processTicker demoMsToDate "AAPL" (Except.ok demoData)
        (fun _ => true)).1 = true := by
  exact (c7_entity_success_iff_all_buckets demoMsToDate "AAPL"
    (Except.ok demoData) (fun _ => true) demoData (by decide)
    (by decide)).2.mpr (fun k _ => rfl)

/-! ## Claim C8 (corrected)

Per-entity fetch/write failures are indeed recorded and never abort the
run, and a failure to enumerate tickers is indeed fatal before any
fetching.  But an inability to query the high-water mark is NOT fatal:
`get_max_date_for_ticker` catches the exception and returns `None`, so
the ticker is planned with the full 730-day lookback window and the run
proceeds. -/

/-- C8 counterexample: with a high-water-mark store whose every query
raises, the run does not abort — it completes and records the single
planned ticker (here with a failing fetch) as an ordinary per-ticker
failure. -/
theorem c8_hwm_failure_counterexample :
    runPipeline (α := Nat) (Except.ok ["AAPL"]) (fun _ => Except.error ())
        (fun _ _ _ => Except.error ()) (fun _ _ => false) demoMsToDate 20000
      = Except.ok [("AAPL", false)]
    ∧ runPipeline (α := Nat) (Except.ok ["AAPL"]) (fun _ => Except.error ())
        (fun _ _ _ => Except.error ()) (fun _ _ => false) demoMsToDate 20000
      ≠ Except.error () := by
  refine ⟨rfl, ?_⟩
  intro h
  rw [show runPipeline (α := Nat) (Except.ok ["AAPL"])
      (fun _ => Except.error ()) (fun _ _ _ => Except.error ())
      (fun _ _ => false) demoMsToDate 20000
    = Except.ok [("AAPL", false)] from rfl] at h
  exact Except.noConfusion h

/-- C8 amended: a ticker-enumeration failure aborts the run before any
fetching; per-entity fetch/write outcomes never abort the run, which
records one result per planned ticker; and a high-water-mark query
failure for a ticker is swallowed — the ticker is treated as having no
prior data and planned with the full 730-day lookback window instead of
aborting the run. -/
theorem c8_failure_isolation [DecidableEq α] (msToDate : Nat → Date)
    (hwm : String → Except Unit (Option Nat))
    (fetch : String → Nat → Nat → Except Unit (ApiResponse α))
    (writeOk : String → String → Bool) (today : Nat)
    (tickers : List String) (t : String) :
    runPipeline (α := α) (Except.error ()) hwm fetch writeOk msToDate today
      = Except.error ()
    ∧ (∃ L, runPipeline (Except.ok tickers) hwm fetch writeOk msToDate today
          = Except.ok L
        ∧ L.map Prod.fst =
            (getTickerDateRanges today tickers hwm).map Prod.fst)
    ∧ (hwm t = Except.error () →
        getMaxDateForTicker hwm t = none
        ∧ plannedWindow today (getMaxDateForTicker hwm t) =
            some (today - 730, endDate today)) := by
  refine ⟨rfl, ⟨_, rfl, by rw [List.map_map]; rfl⟩, ?_⟩
  intro herr
  have hmax : getMaxDateForTicker hwm t = none := by
    rw [getMaxDateForTicker, herr]
  exact ⟨hmax, by rw [hmax]; rfl⟩

/-- C8 witness: concrete high-water-mark query failure is swallowed and
yields the fallback plan. -/
theorem c8_failure_isolation_witness :
    getMaxDateForTicker (fun _ => Except.error ()) "AAPL" = none
    ∧ plannedWindow 20000
        (getMaxDateForTicker (fun _ => Except.error ()) "AAPL") =
      some (20000 - 730, endDate 20000) := by
  exact (c8_failure_isolation (α := Nat) demoMsToDate
    (fun _ => Except.error ()) (fun _ _ _ => Except.error ())
    (fun _ _ => false) 20000 [] "AAPL").2.2 rfl

/-! ## Claim C9 (corrected)

`END_DATE` is computed once in `__init__` and used unchanged for every
planned window, and a Saturday or Sunday start maps it back to Friday.
But a Monday start maps it to the previous calendar day — Sunday — so
the cutoff CAN be a weekend day. -/

/-- C9 counterexample: day 20003 is a Monday (`weekday 0`), and the
cutoff computed from it is day 20002, a Sunday (`weekday 6`) — a weekend
cutoff, contradicting the claim. -/
theorem c9_weekend_counterexample :
    pyWeekday 20003 = 0 ∧ pyWeekday (endDate 20003) = 6 := by
  decide

/-- C9 amended: the cutoff is a pure function of the run's start day,
used unchanged as the end of every planned window; a Saturday start maps
it one day back to Friday, a Sunday start two days back to Friday, and
any weekday start one day back to the previous calendar day — which for
a Monday start is a Sunday, so the cutoff is not always a weekday. -/
theorem c9_cutoff_characterization (today : Nat) (tickers : List String)
    (hwm : String → Except Unit (Option Nat)) :
    (pyWeekday today = 5 →
      endDate today = today - 1 ∧ pyWeekday (endDate today) = 4)
    ∧ (pyWeekday today = 6 →
        endDate today = today - 2 ∧ pyWeekday (endDate today) = 4)
    ∧ (pyWeekday today < 5 → endDate today = today - 1)
    ∧ (pyWeekday today = 0 → pyWeekday (endDate today) = 6)
    ∧ (∀ r ∈ getTickerDateRanges today tickers hwm,
        r.2.2 = endDate today) := by
  refine ⟨?_, ?_, ?_, ?_, ?_⟩
  · intro h
    rw [endDate, if_pos h]
    rw [pyWeekday] at h ⊢
    omega
  · intro h
    rw [endDate, if_neg (by omega), if_pos h]
    rw [pyWeekday] at h ⊢
    omega
  · intro h
    rw [endDate, if_neg (by omega), if_neg (by omega)]
  · intro h
    rw [endDate, if_neg (by rw [pyWeekday] at h ⊢; omega),
      if_neg (by rw [pyWeekday] at h ⊢; omega)]
    rw [pyWeekday] at h ⊢
    omega
  · intro r hr
    exact (plannedWindow_sound today (getMaxDateForTicker hwm r.1) r.2
      (mem_getTickerDateRanges today tickers hwm r hr).2).2

/-- C9 witness: day 20002 is a Sunday, so the cutoff computed from it is
day 20000, a Friday. -/
theorem c9_cutoff_characterization_witness :
    endDate 20002 = 20000 ∧ pyWeekday (endDate 20002) = 4 := by
  exact (c9_cutoff_characterization 20002 [] (fun _ => Except.ok none)).2.1
    (by decide)

/-! ## Claim C10 -/

theorem replaceDash_zfill (w n : Nat) : replaceDash (zfill w n) = zfill w n := by
  rw [replaceDash]
  have h : ∀ c ∈ zfill w n, (if c = '-' then '_' else c) = id c := by
    intro c hc
    exact if_neg (mem_zfill_ne_sep w n c hc).1
  rw [List.map_congr_left h, List.map_id]

theorem replaceDash_monthKeyChars (y m : Nat) :
    replaceDash (monthKeyChars y m) = zfill 4 y ++ '_' :: zfill 2 m := by
  rw [monthKeyChars, replaceDash, List.map_append, List.map_cons,
    if_pos rfl, ← replaceDash, ← replaceDash, replaceDash_zfill,
    replaceDash_zfill]

/-- Helper: the artifact key determines the ticker (when the ticker has
no underscore) and the month-key components. -/
theorem s3Filename_monthKey_injective (t1 t2 : String) (y1 m1 y2 m2 : Nat)
    (h1 : '_' ∉ t1.data) (h2 : '_' ∉ t2.data)
    (h : s3Filename t1 (monthKey y1 m1) = s3Filename t2 (monthKey y2 m2)) :
    t1 = t2 ∧ y1 = y2 ∧ m1 = m2 := by
  have hchars : s3FilenameChars t1 (monthKey y1 m1)
      = s3FilenameChars t2 (monthKey y2 m2) := congrArg String.data h
  rw [s3FilenameChars, s3FilenameChars] at hchars
  have hshape : ∀ y m : Nat, replaceDash (monthKey y m).data ++ ".parquet".data
      = zfill 4 y ++ '_' :: (zfill 2 m ++ ".parquet".data) := by
    intro y m
    rw [show (monthKey y m).data = monthKeyChars y m from rfl,
      replaceDash_monthKeyChars, List.append_assoc, List.cons_append]
  rw [hshape, hshape] at hchars
  obtain ⟨ht, hrest⟩ := split_at_sep '_' t1.data t2.data _ _ h1 h2 hchars
  obtain ⟨hy, hm⟩ := split_at_sep '_' (zfill 4 y1) (zfill 4 y2) _ _
    (underscore_not_mem_zfill 4 y1) (underscore_not_mem_zfill 4 y2) hrest
  refine ⟨congrArg String.mk ht, zfill_injective 4 y1 y2 hy, ?_⟩
  exact zfill_injective 2 m1 m2 (List.append_cancel_right hm)

/-- C10: for two pairs of a ticker (containing no underscore) and a
generated `'YYYY-MM'` period key, differing in ticker, year or month, the
artifact keys `f"{ticker}_{month.replace('-', '_')}.parquet"` differ — so
a write for one (entity, period) can never overwrite the artifact of a
different entity or period. -/
theorem c10_artifact_key_injective (t1 t2 : String) (y1 m1 y2 m2 : Nat)
    (h1 : '_' ∉ t1.data) (h2 : '_' ∉ t2.data)
    (hne : ¬(t1 = t2 ∧ y1 = y2 ∧ m1 = m2)) :
    s3Filename t1 (monthKey y1 m1) ≠ s3Filename t2 (monthKey y2 m2) := by
  intro h
  exact hne (s3Filename_monthKey_injective t1 t2 y1 m1 y2 m2 h1 h2 h)

/-- C10 witness: two concrete (ticker, month) pairs differing only in the
month map to distinct keys. -/
theorem c10_artifact_key_injective_witness :
    s3Filename "AAPL" (monthKey 2024 2) ≠ s3Filename "AAPL" (monthKey 2024 3) := by
  exact c10_artifact_key_injective "AAPL" "AAPL" 2024 2 2024 3 (by decide)
    (by decide) (by decide)

end OHLCV
